import Mathlib

/-!
# Verification of the TranscribeAnything subtitle-formatting core

Shallow embedding of the subtitle/timestamp formatting layer of the
TranscribeAnything repository (`project/frontend/utils.py`,
`project/frontend/app.py`, `project/backend/models.py`) together with
proofs of the specification claims about it.

Python floating-point seconds values are modelled as exact rationals;
Python `%`, `//` and `int(...)` on those values are modelled by the
corresponding exact operations (`pyMod`, `pyFloorDiv`, `pyInt`).
-/

namespace TranscribeAnything

/-! ## Python numeric and string primitives -/

/-- Python `a % b`: remainder with the sign of the divisor,
`a - b * floor(a / b)`. -/
def pyMod (a b : ℚ) : ℚ := a - b * (⌊a / b⌋ : ℚ)

/-- Python `a // b`: floor division, yielding an integer-valued float. -/
def pyFloorDiv (a b : ℚ) : ℚ := (⌊a / b⌋ : ℚ)

/-- Python `int(x)`: truncation toward zero. -/
def pyInt (q : ℚ) : ℤ := if 0 ≤ q then ⌊q⌋ else -⌊-q⌋

/-- Zero-pad the decimal representation of a natural number on the left to
width `w` (widening naturally when it is already longer). -/
def padZeros (w : ℕ) (n : ℕ) : String :=
  String.mk (List.replicate (w - (toString n).length) '0') ++ toString n

/-- Python `f"{n:0wd}"`: zero-pad to total width `w`, the sign counting
toward the width for negative numbers. -/
def pyFormatInt (w : ℕ) (n : ℤ) : String :=
  if n < 0 then "-" ++ padZeros (w - 1) n.natAbs else padZeros w n.natAbs

/-- Python whitespace characters recognised by `str.strip()`. -/
def isPySpace (c : Char) : Bool :=
  c = ' ' || c = '\t' || c = '\n' || c = '\r' || c = '\x0b' || c = '\x0c'

/-- Python `s.strip()`: remove leading and trailing whitespace. -/
def pyStrip (s : String) : String :=
  String.mk (((s.data.dropWhile isPySpace).reverse.dropWhile isPySpace).reverse)

/-- Python `sep.join(xs)`. -/
def pyJoin (sep : String) : List String → String
  | [] => ""
  | [x] => x
  | x :: y :: ys => x ++ sep ++ pyJoin sep (y :: ys)

/-! ## Time Encoder (`format_time`, `format_srt_time` in frontend/utils.py) -/

/-- Embedding of `format_time` from `frontend/utils.py`: format seconds as
`MM:SS.mmm` for the custom timestamp format. -/
def format_time (seconds : ℚ) : String :=
  let minutes : ℤ := pyInt (pyFloorDiv seconds 60)
  let remaining_seconds : ℚ := pyMod seconds 60
  let milliseconds : ℤ := pyInt (pyMod remaining_seconds 1 * 1000)
  let whole_seconds : ℤ := pyInt remaining_seconds
  pyFormatInt 2 minutes ++ ":" ++ pyFormatInt 2 whole_seconds ++ "." ++
    pyFormatInt 3 milliseconds

/-- Embedding of `format_srt_time` from `frontend/utils.py`: format seconds
as `HH:MM:SS,mmm` for the SRT format. -/
def format_srt_time (seconds : ℚ) : String :=
  let hours : ℤ := pyInt (pyFloorDiv seconds 3600)
  let minutes : ℤ := pyInt (pyFloorDiv (pyMod seconds 3600) 60)
  let remaining_seconds : ℚ := pyMod seconds 60
  let milliseconds : ℤ := pyInt (pyMod remaining_seconds 1 * 1000)
  let whole_seconds : ℤ := pyInt remaining_seconds
  pyFormatInt 2 hours ++ ":" ++ pyFormatInt 2 minutes ++ ":" ++
    pyFormatInt 2 whole_seconds ++ "," ++ pyFormatInt 3 milliseconds

/-! ## Data model

A transcription result arrives in the frontend as a decoded JSON object
(a Python dict). Segment dicts may be missing any of their keys, so every
segment field is an `Option`; `segments = none` models both a missing
`"segments"` key and a `null` value (the code treats both identically,
always guarding with `"segments" not in result or not result["segments"]`
or with truthiness). -/

/-- A word record with per-token timing. -/
structure Word where
  word : String
  start : ℚ
  «end» : ℚ
deriving DecidableEq

/-- A segment dict as seen by the frontend formatters: every key may be
missing. -/
structure Segment where
  start : Option ℚ
  «end» : Option ℚ
  text : Option String
  words : Option (List Word)
deriving DecidableEq

/-- A transcription result dict as consumed by the frontend formatters:
`text` and `language` are guaranteed by the response contract, `segments`
is optional. -/
structure TranscriptionResult where
  text : String
  language : String
  segments : Option (List Segment)
deriving DecidableEq

/-- The validity test applied inline by both formatters:
`"start" not in segment or "end" not in segment or "text" not in segment`
negated. -/
def hasRequiredFields (s : Segment) : Bool :=
  s.start.isSome && s.«end».isSome && s.text.isSome

/-- The retained (validated) subsequence of a segment list. -/
def retainedSegments (segs : List Segment) : List Segment :=
  segs.filter hasRequiredFields

/-- Python truthiness of a segment dict: a dict is falsy iff it is empty. -/
def Segment.isTruthy (s : Segment) : Bool :=
  s.start.isSome || s.«end».isSome || s.text.isSome || s.words.isSome

/-! ## Subtitle Formatter (`format_timestamps_as_subtitles`) -/

/-- One iteration of the loop in `format_timestamps_as_subtitles`: `none`
when the segment is skipped by the field-presence test, otherwise the
emitted line. -/
def subtitleLine (seg : Segment) : Option String :=
  match seg.start, seg.«end», seg.text with
  | some st, some en, some tx =>
      some ("[" ++ format_time st ++ " --> " ++ format_time en ++ "]  " ++ pyStrip tx)
  | _, _, _ => none

/-- Embedding of `format_timestamps_as_subtitles` from `frontend/utils.py`. -/
def format_timestamps_as_subtitles (result : TranscriptionResult) : List String :=
  match result.segments with
  | none => []
  | some segs => if segs.isEmpty then [] else segs.filterMap subtitleLine

/-! ## SRT Formatter (`generate_srt_content`) -/

/-- The lines contributed to `srt_lines` by one loop iteration of
`generate_srt_content`, where `i` is the `enumerate(..., 1)` counter (the
1-based position in the full input list, advancing also over skipped
segments). -/
def srtBlock (i : ℕ) (seg : Segment) : List String :=
  match seg.start, seg.«end», seg.text with
  | some st, some en, some tx =>
      [toString i, format_srt_time st ++ " --> " ++ format_srt_time en, pyStrip tx, ""]
  | _, _, _ => []

/-- The full `srt_lines` list accumulated by the loop of
`generate_srt_content`, started at counter `i`. -/
def srtLinesFrom (i : ℕ) : List Segment → List String
  | [] => []
  | seg :: rest => srtBlock i seg ++ srtLinesFrom (i + 1) rest

/-- Embedding of `generate_srt_content` from `frontend/utils.py`. -/
def generate_srt_content (result : TranscriptionResult) : String :=
  match result.segments with
  | none => ""
  | some segs => if segs.isEmpty then "" else pyJoin "\n" (srtLinesFrom 1 segs)

/-! ## Export Assembler (file names and full-JSON gating in `frontend/app.py`) -/

/-- Embedding of Python `name.split('.')` at the character level: split on
every dot, keeping empty parts, always returning at least one part. -/
def pySplitOnDot : List Char → List (List Char)
  | [] => [[]]
  | c :: cs =>
    if c = '.' then [] :: pySplitOnDot cs
    else
      match pySplitOnDot cs with
      | [] => [[c]]
      | r :: rs => (c :: r) :: rs

/-- The base used for all derived artifact names in `frontend/app.py`:
`file_info['name'].split('.')[0]`. -/
def base_name (name : String) : String :=
  String.mk ((pySplitOnDot name.data).headD [])

/-- File name of the plain-transcript download (`frontend/app.py`). -/
def transcript_file_name (name : String) : String :=
  base_name name ++ "_transcript.txt"

/-- File name of the SRT download (`frontend/app.py`). -/
def srt_file_name (name : String) : String :=
  base_name name ++ ".srt"

/-- File name of the custom-subtitles download (`frontend/app.py`). -/
def subtitles_file_name (name : String) : String :=
  base_name name ++ "_subtitles.txt"

/-- File name of the full-JSON download (`frontend/app.py`). -/
def full_json_file_name (name : String) : String :=
  base_name name ++ "_full_transcript.json"

/-- Embedding of the gating condition for the "Download Full JSON" button in
`frontend/app.py`: `word_timestamps_requested and "segments" in result and
result["segments"] and result["segments"][0] and "words" in
result["segments"][0]`. -/
def full_json_offered (word_timestamps_requested : Bool)
    (result : TranscriptionResult) : Bool :=
  word_timestamps_requested &&
    match result.segments with
    | none => false
    | some [] => false
    | some (s0 :: _) => s0.isTruthy && s0.words.isSome

/-! ## Arithmetic properties of the Python primitives -/

theorem pyInt_intCast (z : ℤ) : pyInt (z : ℚ) = z := by
  unfold pyInt
  split
  · exact Int.floor_intCast z
  · rw [show -((z : ℚ)) = ((-z : ℤ) : ℚ) by push_cast; ring, Int.floor_intCast]
    omega

theorem pyInt_eq_floor (q : ℚ) (h : 0 ≤ q) : pyInt q = ⌊q⌋ := by
  simp [pyInt, h]

theorem pyMod_nonneg (a b : ℚ) (hb : 0 < b) : 0 ≤ pyMod a b := by
  unfold pyMod
  have h1 : (⌊a / b⌋ : ℚ) ≤ a / b := Int.floor_le _
  have h2 : b * (⌊a / b⌋ : ℚ) ≤ b * (a / b) := mul_le_mul_of_nonneg_left h1 hb.le
  have h3 : b * (a / b) = a := by field_simp
  linarith

theorem pyMod_lt (a b : ℚ) (hb : 0 < b) : pyMod a b < b := by
  unfold pyMod
  have h1 : a / b < (⌊a / b⌋ : ℚ) + 1 := Int.lt_floor_add_one _
  have h2 : b * (a / b) < b * ((⌊a / b⌋ : ℚ) + 1) := (mul_lt_mul_left hb).mpr h1
  have h3 : b * (a / b) = a := by field_simp
  have h4 : b * ((⌊a / b⌋ : ℚ) + 1) = b * (⌊a / b⌋ : ℚ) + b := by ring
  linarith

theorem pyMod_one_eq_fract (a : ℚ) : pyMod a 1 = Int.fract a := by
  unfold pyMod Int.fract
  rw [div_one, one_mul]

theorem fract_pyMod_sixty (a : ℚ) : pyMod (pyMod a 60) 1 = Int.fract a := by
  rw [pyMod_one_eq_fract]
  unfold pyMod
  rw [show (60 : ℚ) * (⌊a / 60⌋ : ℚ) = ((60 * ⌊a / 60⌋ : ℤ) : ℚ) by push_cast; ring,
    Int.fract_sub_int]

/-! ## Spec-side time encodings

The following two definitions transcribe the formulas of the specification
(§4.1) literally: minutes/hours by floor division, the seconds component as
the integer part of `seconds mod 60`, and the millisecond component as
`floor((seconds mod 1) * 1000)` (with `seconds mod 1 = Int.fract seconds`).
They are compared against the source embeddings `format_time` and
`format_srt_time`. -/

/-- Spec formula for `encodeCompact(seconds) -> "MM:SS.mmm"`. -/
def encodeCompactSpec (s : ℚ) : String :=
  pyFormatInt 2 ⌊s / 60⌋ ++ ":" ++ pyFormatInt 2 ⌊s - 60 * (⌊s / 60⌋ : ℚ)⌋ ++ "." ++
    pyFormatInt 3 ⌊Int.fract s * 1000⌋

/-- Spec formula for `encodeStandard(seconds) -> "HH:MM:SS,mmm"`. -/
def encodeStandardSpec (s : ℚ) : String :=
  pyFormatInt 2 ⌊s / 3600⌋ ++ ":" ++
    pyFormatInt 2 ⌊(s - 3600 * (⌊s / 3600⌋ : ℚ)) / 60⌋ ++ ":" ++
    pyFormatInt 2 ⌊s - 60 * (⌊s / 60⌋ : ℚ)⌋ ++ "," ++
    pyFormatInt 3 ⌊Int.fract s * 1000⌋

theorem format_time_components (s : ℚ) :
    format_time s = pyFormatInt 2 ⌊s / 60⌋ ++ ":" ++ pyFormatInt 2 ⌊pyMod s 60⌋ ++ "." ++
      pyFormatInt 3 ⌊Int.fract s * 1000⌋ := by
  unfold format_time
  simp only [pyFloorDiv]
  rw [pyInt_intCast, fract_pyMod_sixty,
    pyInt_eq_floor _ (pyMod_nonneg s 60 (by norm_num)),
    pyInt_eq_floor _ (mul_nonneg (Int.fract_nonneg s) (by norm_num))]

theorem format_srt_time_components (s : ℚ) :
    format_srt_time s = pyFormatInt 2 ⌊s / 3600⌋ ++ ":" ++
      pyFormatInt 2 ⌊pyMod s 3600 / 60⌋ ++ ":" ++ pyFormatInt 2 ⌊pyMod s 60⌋ ++ "," ++
      pyFormatInt 3 ⌊Int.fract s * 1000⌋ := by
  unfold format_srt_time
  simp only [pyFloorDiv]
  rw [pyInt_intCast, pyInt_intCast, fract_pyMod_sixty,
    pyInt_eq_floor _ (pyMod_nonneg s 60 (by norm_num)),
    pyInt_eq_floor _ (mul_nonneg (Int.fract_nonneg s) (by norm_num))]

/-- Evaluate `format_time` at a concrete value given its decomposition
`s = 60 * m + w + f` into minutes, whole seconds and fractional part. -/
theorem format_time_eval (s : ℚ) (m w ms : ℕ) (f : ℚ)
    (hdec : s = 60 * m + w + f) (hw : w < 60) (hf0 : 0 ≤ f) (hf1 : f < 1)
    (hms1 : (ms : ℚ) ≤ f * 1000) (hms2 : f * 1000 < ms + 1) :
    format_time s = pyFormatInt 2 (m : ℤ) ++ ":" ++ pyFormatInt 2 (w : ℤ) ++ "." ++
      pyFormatInt 3 (ms : ℤ) := by
  have hw59 : (w : ℚ) ≤ 59 := by
    have : w ≤ 59 := by omega
    exact_mod_cast this
  have hm : ⌊s / 60⌋ = (m : ℤ) := by
    rw [Int.floor_eq_iff]
    constructor
    · rw [le_div_iff₀ (by norm_num : (0:ℚ) < 60)]
      push_cast
      rw [hdec]
      have : (0:ℚ) ≤ (w : ℚ) := by positivity
      linarith
    · rw [div_lt_iff₀ (by norm_num : (0:ℚ) < 60)]
      push_cast
      rw [hdec]
      linarith
  have hwmod : pyMod s 60 = (w : ℚ) + f := by
    unfold pyMod
    rw [hm, hdec]
    push_cast
    ring
  have hwfl : ⌊pyMod s 60⌋ = (w : ℤ) := by
    rw [hwmod, Int.floor_eq_iff]
    constructor
    · push_cast
      linarith
    · push_cast
      linarith
  have hsfl : ⌊s⌋ = 60 * m + w := by
    rw [Int.floor_eq_iff, hdec]
    constructor
    · push_cast
      linarith
    · push_cast
      linarith
  have hfr : Int.fract s = f := by
    unfold Int.fract
    rw [hsfl, hdec]
    push_cast
    ring
  have hmsfl : ⌊Int.fract s * 1000⌋ = (ms : ℤ) := by
    rw [hfr, Int.floor_eq_iff]
    constructor
    · push_cast
      linarith
    · push_cast
      linarith
  rw [format_time_components, hm, hwfl, hmsfl]

/-- Evaluate `format_srt_time` at a concrete value given its decomposition
`s = 3600 * hh + 60 * mm + w + f`. -/
theorem format_srt_time_eval (s : ℚ) (hh mm w ms : ℕ) (f : ℚ)
    (hdec : s = 3600 * hh + 60 * mm + w + f) (hmm : mm < 60) (hw : w < 60)
    (hf0 : 0 ≤ f) (hf1 : f < 1)
    (hms1 : (ms : ℚ) ≤ f * 1000) (hms2 : f * 1000 < ms + 1) :
    format_srt_time s = pyFormatInt 2 (hh : ℤ) ++ ":" ++ pyFormatInt 2 (mm : ℤ) ++ ":" ++
      pyFormatInt 2 (w : ℤ) ++ "," ++ pyFormatInt 3 (ms : ℤ) := by
  have hw59 : (w : ℚ) ≤ 59 := by
    have : w ≤ 59 := by omega
    exact_mod_cast this
  have hmm59 : (mm : ℚ) ≤ 59 := by
    have : mm ≤ 59 := by omega
    exact_mod_cast this
  have hwq : (0:ℚ) ≤ (w : ℚ) := by positivity
  have hmmq : (0:ℚ) ≤ (mm : ℚ) := by positivity
  have hh3600 : ⌊s / 3600⌋ = (hh : ℤ) := by
    rw [Int.floor_eq_iff]
    constructor
    · rw [le_div_iff₀ (by norm_num : (0:ℚ) < 3600)]
      push_cast
      rw [hdec]
      linarith
    · rw [div_lt_iff₀ (by norm_num : (0:ℚ) < 3600)]
      push_cast
      rw [hdec]
      linarith
  have hmod3600 : pyMod s 3600 = 60 * (mm : ℚ) + w + f := by
    unfold pyMod
    rw [hh3600, hdec]
    push_cast
    ring
  have hmmfl : ⌊pyMod s 3600 / 60⌋ = (mm : ℤ) := by
    rw [hmod3600, Int.floor_eq_iff]
    constructor
    · rw [le_div_iff₀ (by norm_num : (0:ℚ) < 60)]
      push_cast
      linarith
    · rw [div_lt_iff₀ (by norm_num : (0:ℚ) < 60)]
      push_cast
      linarith
  have hm60 : ⌊s / 60⌋ = 60 * hh + mm := by
    rw [Int.floor_eq_iff]
    constructor
    · rw [le_div_iff₀ (by norm_num : (0:ℚ) < 60)]
      push_cast
      rw [hdec]
      linarith
    · rw [div_lt_iff₀ (by norm_num : (0:ℚ) < 60)]
      push_cast
      rw [hdec]
      linarith
  have hwmod : pyMod s 60 = (w : ℚ) + f := by
    unfold pyMod
    rw [hm60, hdec]
    push_cast
    ring
  have hwfl : ⌊pyMod s 60⌋ = (w : ℤ) := by
    rw [hwmod, Int.floor_eq_iff]
    constructor
    · push_cast
      linarith
    · push_cast
      linarith
  have hsfl : ⌊s⌋ = 3600 * hh + 60 * mm + w := by
    rw [Int.floor_eq_iff, hdec]
    constructor
    · push_cast
      linarith
    · push_cast
      linarith
  have hfr : Int.fract s = f := by
    unfold Int.fract
    rw [hsfl, hdec]
    push_cast
    ring
  have hmsfl : ⌊Int.fract s * 1000⌋ = (ms : ℤ) := by
    rw [hfr, Int.floor_eq_iff]
    constructor
    · push_cast
      linarith
    · push_cast
      linarith
  rw [format_srt_time_components, hh3600, hmmfl, hwfl, hmsfl]

/-- C7: for every non-negative seconds value, `format_time` produces
`MM:SS.mmm` with minutes `floor(s/60)`, seconds the integer part of
`s mod 60`, and `format_srt_time` produces `HH:MM:SS,mmm` with hours
`floor(s/3600)` and minutes `floor((s mod 3600)/60)`; in both, the
millisecond component is `floor((s mod 1) * 1000)`, truncated (never
rounded up) and below 1000, zero-padded to 3 digits. -/
theorem time_encoders_match_spec (s : ℚ) (_h : 0 ≤ s) :
    format_time s = encodeCompactSpec s ∧ format_srt_time s = encodeStandardSpec s ∧
      (⌊Int.fract s * 1000⌋ : ℚ) ≤ Int.fract s * 1000 ∧ ⌊Int.fract s * 1000⌋ < 1000 := by
  refine ⟨?_, ?_, Int.floor_le _, ?_⟩
  · rw [format_time_components]
    unfold encodeCompactSpec pyMod
    rfl
  · rw [format_srt_time_components]
    unfold encodeStandardSpec pyMod
    rfl
  · rw [Int.floor_lt]
    have h1 : Int.fract s < 1 := Int.fract_lt_one s
    push_cast
    nlinarith

/-- Witness for `time_encoders_match_spec` at `s = 0`. -/
theorem time_encoders_match_spec_witness :
    (0 : ℚ) ≤ 0 ∧
      (format_time 0 = encodeCompactSpec 0 ∧ format_srt_time 0 = encodeStandardSpec 0 ∧
        (⌊Int.fract (0 : ℚ) * 1000⌋ : ℚ) ≤ Int.fract (0 : ℚ) * 1000 ∧
        ⌊Int.fract (0 : ℚ) * 1000⌋ < 1000) :=
  ⟨le_rfl, time_encoders_match_spec 0 le_rfl⟩

/-- C8: the worked examples of both time encoders: `format_time` maps `0`,
`61.5` and `3600` to `"00:00.000"`, `"01:01.500"` and `"60:00.000"` (minutes
do not roll over into hours), and `format_srt_time` maps `0` and `3661.25`
to `"00:00:00,000"` and `"01:01:01,250"`. -/
theorem time_encoder_worked_examples :
    format_time 0 = "00:00.000" ∧ format_time (61.5 : ℚ) = "01:01.500" ∧
      format_time 3600 = "60:00.000" ∧ format_srt_time 0 = "00:00:00,000" ∧
      format_srt_time (3661.25 : ℚ) = "01:01:01,250" := by
  refine ⟨?_, ?_, ?_, ?_, ?_⟩
  · rw [format_time_eval 0 0 0 0 0 (by norm_num) (by norm_num) le_rfl (by norm_num)
      (by norm_num) (by norm_num)]
    rfl
  · rw [format_time_eval (61.5 : ℚ) 1 1 500 (1/2) (by norm_num) (by norm_num) (by norm_num)
      (by norm_num) (by norm_num) (by norm_num)]
    rfl
  · rw [format_time_eval 3600 60 0 0 0 (by norm_num) (by norm_num) le_rfl (by norm_num)
      (by norm_num) (by norm_num)]
    rfl
  · rw [format_srt_time_eval 0 0 0 0 0 0 (by norm_num) (by norm_num) (by norm_num) le_rfl
      (by norm_num) (by norm_num) (by norm_num)]
    rfl
  · rw [format_srt_time_eval (3661.25 : ℚ) 1 1 1 250 (1/4) (by norm_num) (by norm_num)
      (by norm_num) (by norm_num) (by norm_num) (by norm_num) (by norm_num)]
    rfl

/-! ## Structural lemmas about the two segment formatters -/

/-- The line emitted for a segment passing the field-presence test, as a
total function of the segment. -/
def validSubtitleLine (s : Segment) : String :=
  "[" ++ format_time (s.start.getD 0) ++ " --> " ++ format_time (s.«end».getD 0) ++ "]  " ++
    pyStrip (s.text.getD "")

/-- The four lines of a retained segment's SRT block, as a total function. -/
def validSrtBlock (i : ℕ) (s : Segment) : List String :=
  [toString i, format_srt_time (s.start.getD 0) ++ " --> " ++ format_srt_time (s.«end».getD 0),
    pyStrip (s.text.getD ""), ""]

theorem subtitleLine_eq (s : Segment) :
    subtitleLine s = if hasRequiredFields s then some (validSubtitleLine s) else none := by
  rcases s with ⟨st, en, tx, ws⟩
  cases st <;> cases en <;> cases tx <;> rfl

theorem srtBlock_eq (i : ℕ) (s : Segment) :
    srtBlock i s = if hasRequiredFields s then validSrtBlock i s else [] := by
  rcases s with ⟨st, en, tx, ws⟩
  cases st <;> cases en <;> cases tx <;> rfl

theorem filterMap_subtitleLine (segs : List Segment) :
    segs.filterMap subtitleLine = (segs.filter hasRequiredFields).map validSubtitleLine := by
  induction segs with
  | nil => rfl
  | cons s rest ih =>
    rw [List.filterMap_cons, List.filter_cons, subtitleLine_eq]
    cases hb : hasRequiredFields s
    · simpa using ih
    · simpa using ih

theorem subtitles_eq_map_filter (r : TranscriptionResult) (segs : List Segment)
    (h : r.segments = some segs) :
    format_timestamps_as_subtitles r = (segs.filter hasRequiredFields).map validSubtitleLine := by
  unfold format_timestamps_as_subtitles
  rw [h]
  cases segs with
  | nil => rfl
  | cons s rest =>
    show (if (s :: rest).isEmpty = true then [] else (s :: rest).filterMap subtitleLine) = _
    rw [if_neg (by simp), filterMap_subtitleLine]

theorem srtLinesFrom_length (i : ℕ) (segs : List Segment) :
    (srtLinesFrom i segs).length = 4 * (segs.filter hasRequiredFields).length := by
  induction segs generalizing i with
  | nil => rfl
  | cons s rest ih =>
    rw [srtLinesFrom, List.length_append, srtBlock_eq, List.filter_cons, ih]
    cases hb : hasRequiredFields s
    · simp
    · simp [validSrtBlock]
      omega

theorem srtLinesFrom_eq_nil (i : ℕ) (segs : List Segment)
    (h : segs.filter hasRequiredFields = []) : srtLinesFrom i segs = [] := by
  have hlen : (srtLinesFrom i segs).length = 0 := by
    rw [srtLinesFrom_length, h]
    rfl
  exact List.length_eq_zero.mp hlen

theorem pyJoin_length_ge (sep x y : String) (ys : List String) :
    sep.length ≤ (pyJoin sep (x :: y :: ys)).length := by
  rw [pyJoin, String.length_append, String.length_append]
  omega

/-- The `srt_lines` list out of which `generate_srt_content` builds its
output (empty when the early-return branches fire). -/
def srtContentLines (r : TranscriptionResult) : List String :=
  match r.segments with
  | none => []
  | some segs => if segs.isEmpty then [] else srtLinesFrom 1 segs

theorem generate_srt_eq_join (r : TranscriptionResult) :
    generate_srt_content r = pyJoin "\n" (srtContentLines r) := by
  unfold generate_srt_content srtContentLines
  cases r.segments with
  | none => rfl
  | some segs =>
    cases segs with
    | nil => rfl
    | cons s rest => rfl

theorem srt_join_empty_iff (segs : List Segment) :
    pyJoin "\n" (srtLinesFrom 1 segs) = "" ↔ segs.filter hasRequiredFields = [] := by
  constructor
  · intro hjoin
    by_contra hne
    have hk : 1 ≤ (segs.filter hasRequiredFields).length := by
      cases hfil : segs.filter hasRequiredFields
      · exact absurd hfil hne
      · simp
    have hlen : 4 ≤ (srtLinesFrom 1 segs).length := by
      rw [srtLinesFrom_length]
      omega
    match hl : srtLinesFrom 1 segs with
    | [] => rw [hl] at hlen; simp at hlen
    | [x] => rw [hl] at hlen; simp at hlen
    | x :: y :: ys =>
      have hge := pyJoin_length_ge "\n" x y ys
      rw [← hl, hjoin] at hge
      exact absurd hge (by decide)
  · intro hfil
    rw [srtLinesFrom_eq_nil 1 segs hfil]
    rfl

/-! ## Claims about validation and the two formatters -/

/-- C2: validation retains exactly the order-preserving subsequence of
segments possessing all of `start`, `end` and `text`: the retained
subsequence is a sublist of the input characterised by the field-presence
test, the subtitle formatter's output is the image of exactly that
subsequence (missing-field segments are silently skipped while the rest
are still processed), and an input whose segments all miss a field yields
an empty subtitle list and an empty SRT string rather than an error. -/
theorem validator_retains_exactly_complete_segments (r : TranscriptionResult)
    (segs : List Segment) (h : r.segments = some segs) :
    List.Sublist (retainedSegments segs) segs ∧
      (∀ s, s ∈ retainedSegments segs ↔ s ∈ segs ∧ hasRequiredFields s = true) ∧
      format_timestamps_as_subtitles r = (retainedSegments segs).map validSubtitleLine ∧
      ((∀ s ∈ segs, hasRequiredFields s = false) →
        format_timestamps_as_subtitles r = [] ∧ generate_srt_content r = "") := by
  refine ⟨List.filter_sublist segs, ?_, subtitles_eq_map_filter r segs h, ?_⟩
  · intro s
    simp [retainedSegments, List.mem_filter]
  · intro hall
    have hfil : segs.filter hasRequiredFields = [] := by
      rw [List.filter_eq_nil_iff]
      intro a ha
      simp [hall a ha]
    constructor
    · rw [subtitles_eq_map_filter r segs h, hfil]
      rfl
    · rw [generate_srt_eq_join]
      unfold srtContentLines
      rw [h]
      cases segs with
      | nil => rfl
      | cons s rest =>
        show pyJoin "\n" (if (s :: rest).isEmpty = true then [] else srtLinesFrom 1 (s :: rest))
          = ""
        rw [if_neg (by simp), srtLinesFrom_eq_nil _ _ hfil]
        rfl

/-- Witness for `validator_retains_exactly_complete_segments` on a result
holding one all-missing segment. -/
theorem validator_retains_exactly_complete_segments_witness :
    (⟨"t", "en", some [⟨none, none, none, none⟩]⟩ : TranscriptionResult).segments =
        some [⟨none, none, none, none⟩] ∧
      (List.Sublist (retainedSegments [⟨none, none, none, none⟩]) [⟨none, none, none, none⟩] ∧
        (∀ s, s ∈ retainedSegments [⟨none, none, none, none⟩] ↔
          s ∈ [(⟨none, none, none, none⟩ : Segment)] ∧ hasRequiredFields s = true) ∧
        format_timestamps_as_subtitles ⟨"t", "en", some [⟨none, none, none, none⟩]⟩ =
          (retainedSegments [⟨none, none, none, none⟩]).map validSubtitleLine ∧
        ((∀ s ∈ [(⟨none, none, none, none⟩ : Segment)], hasRequiredFields s = false) →
          format_timestamps_as_subtitles ⟨"t", "en", some [⟨none, none, none, none⟩]⟩ = [] ∧
          generate_srt_content ⟨"t", "en", some [⟨none, none, none, none⟩]⟩ = "")) :=
  ⟨rfl, validator_retains_exactly_complete_segments _ _ rfl⟩

/-- C3: the subtitle formatter emits, for exactly the retained segments in
order, the line `"[" ++ format_time start ++ " --> " ++ format_time end ++
"]  " ++ trimmed text` (two spaces between the closing bracket and the
text); it returns an empty list on a result with no segments key, an empty
segment list, or only invalid segments; and on the single segment
`{start 1.0, end 2.5, text " hi "}` it returns
`["[00:01.000 --> 00:02.500]  hi"]`. -/
theorem subtitle_formatter_emits_exact_lines :
    (∀ r segs, r.segments = some segs →
      format_timestamps_as_subtitles r = (segs.filter hasRequiredFields).map
        (fun s => "[" ++ format_time (s.start.getD 0) ++ " --> " ++
          format_time (s.«end».getD 0) ++ "]  " ++ pyStrip (s.text.getD ""))) ∧
    (∀ t l, format_timestamps_as_subtitles ⟨t, l, none⟩ = []) ∧
    (∀ t l, format_timestamps_as_subtitles ⟨t, l, some []⟩ = []) ∧
    (∀ r segs, r.segments = some segs → (∀ s ∈ segs, hasRequiredFields s = false) →
      format_timestamps_as_subtitles r = []) ∧
    format_timestamps_as_subtitles
        ⟨"t", "en", some [⟨some 1, some (2.5 : ℚ), some " hi ", none⟩]⟩ =
      ["[00:01.000 --> 00:02.500]  hi"] := by
  refine ⟨fun r segs h => subtitles_eq_map_filter r segs h, fun t l => rfl, fun t l => rfl,
    ?_, ?_⟩
  · intro r segs h hall
    rw [subtitles_eq_map_filter r segs h]
    have hfil : segs.filter hasRequiredFields = [] := by
      rw [List.filter_eq_nil_iff]
      intro a ha
      simp [hall a ha]
    rw [hfil]
    rfl
  · have h1 : format_time 1 = "00:01.000" := by
      rw [format_time_eval 1 0 1 0 0 (by norm_num) (by norm_num) le_rfl (by norm_num)
        (by norm_num) (by norm_num)]
      rfl
    have h2 : format_time (2.5 : ℚ) = "00:02.500" := by
      rw [format_time_eval (2.5 : ℚ) 0 2 500 (1/2) (by norm_num) (by norm_num) (by norm_num)
        (by norm_num) (by norm_num) (by norm_num)]
      rfl
    rw [subtitles_eq_map_filter _ _ rfl,
      show List.filter hasRequiredFields [⟨some 1, some (2.5 : ℚ), some " hi ", none⟩] =
        [⟨some 1, some (2.5 : ℚ), some " hi ", none⟩] from rfl,
      List.map_cons, List.map_nil,
      show validSubtitleLine ⟨some 1, some (2.5 : ℚ), some " hi ", none⟩ =
        "[" ++ format_time 1 ++ " --> " ++ format_time (2.5 : ℚ) ++ "]  " ++ pyStrip " hi "
        from rfl,
      h1, h2]
    rfl

/-- Witness for `subtitle_formatter_emits_exact_lines` at a concrete
one-segment result. -/
theorem subtitle_formatter_emits_exact_lines_witness :
    (⟨"t", "en", some []⟩ : TranscriptionResult).segments = some [] ∧
      format_timestamps_as_subtitles ⟨"t", "en", some []⟩ =
        (List.filter hasRequiredFields []).map
          (fun s => "[" ++ format_time (s.start.getD 0) ++ " --> " ++
            format_time (s.«end».getD 0) ++ "]  " ++ pyStrip (s.text.getD "")) :=
  ⟨rfl, subtitle_formatter_emits_exact_lines.1 _ _ rfl⟩

/-- C10: the subtitle formatter and the SRT formatter retain exactly the
same segments under the same field-presence test: the SRT line list always
holds exactly four lines per emitted subtitle line (one indexed block per
retained segment), and the subtitle list is empty iff the SRT string is
empty. -/
theorem formatters_agree_on_retained_segments (r : TranscriptionResult) :
    generate_srt_content r = pyJoin "\n" (srtContentLines r) ∧
      (srtContentLines r).length = 4 * (format_timestamps_as_subtitles r).length ∧
      (format_timestamps_as_subtitles r = [] ↔ generate_srt_content r = "") := by
  obtain ⟨t, l, osegs⟩ := r
  refine ⟨generate_srt_eq_join _, ?_, ?_⟩
  · cases osegs with
    | none => rfl
    | some segs =>
      rw [subtitles_eq_map_filter _ segs rfl, List.length_map]
      cases segs with
      | nil => rfl
      | cons s rest =>
        show (if (s :: rest).isEmpty = true then [] else srtLinesFrom 1 (s :: rest)).length = _
        rw [if_neg (by simp), srtLinesFrom_length]
  · cases osegs with
    | none =>
      constructor
      · intro _
        rfl
      · intro _
        rfl
    | some segs =>
      cases segs with
      | nil =>
        constructor
        · intro _
          rfl
        · intro _
          rfl
      | cons s rest =>
        rw [subtitles_eq_map_filter _ (s :: rest) rfl, generate_srt_eq_join,
          show srtContentLines ⟨t, l, some (s :: rest)⟩ = srtLinesFrom 1 (s :: rest) by
            show (if (s :: rest).isEmpty = true then [] else srtLinesFrom 1 (s :: rest)) =
              srtLinesFrom 1 (s :: rest)
            rw [if_neg (by simp)]]
        rw [srt_join_empty_iff]
        constructor
        · intro hmap
          exact List.map_eq_nil_iff.mp hmap
        · intro hfil
          rw [hfil]
          rfl

/-- C1 (failing-input evaluation): on a result whose first segment is
invalid and whose second segment is valid, `generate_srt_content` emits the
single retained block with index `2`, not `1`: the `enumerate(..., 1)`
counter advances over skipped segments, so emitted SRT indices are
positions in the raw input list, not contiguous 1-based indices over the
retained segments. -/
theorem srt_first_retained_block_indexed_two :
    generate_srt_content ⟨"t", "en",
        some [⟨none, none, none, none⟩, ⟨some 0, some 1, some "hi", none⟩]⟩ =
      "2\n00:00:00,000 --> 00:00:01,000\nhi\n" := by
  have h0 : format_srt_time 0 = "00:00:00,000" := by
    rw [format_srt_time_eval 0 0 0 0 0 0 (by norm_num) (by norm_num) (by norm_num) le_rfl
      (by norm_num) (by norm_num) (by norm_num)]
    rfl
  have h1 : format_srt_time 1 = "00:00:01,000" := by
    rw [format_srt_time_eval 1 0 0 1 0 0 (by norm_num) (by norm_num) (by norm_num) le_rfl
      (by norm_num) (by norm_num) (by norm_num)]
    rfl
  rw [show generate_srt_content ⟨"t", "en",
        some [⟨none, none, none, none⟩, ⟨some 0, some 1, some "hi", none⟩]⟩ =
      pyJoin "\n" ["2", format_srt_time 0 ++ " --> " ++ format_srt_time 1, pyStrip "hi", ""]
      from rfl,
    h0, h1]
  rfl

/-! ## Claims about the derived artifact file names -/

theorem pySplitOnDot_ne_nil (l : List Char) : pySplitOnDot l ≠ [] := by
  cases l with
  | nil => simp [pySplitOnDot]
  | cons c cs =>
    rw [pySplitOnDot]
    by_cases hc : c = '.'
    · rw [if_pos hc]
      simp
    · rw [if_neg hc]
      cases hsp : pySplitOnDot cs <;> simp

theorem pySplitOnDot_head (l : List Char) :
    (pySplitOnDot l).headD [] = l.takeWhile (fun c => c != '.') := by
  induction l with
  | nil => rfl
  | cons c cs ih =>
    rw [pySplitOnDot]
    by_cases hc : c = '.'
    · subst hc
      rw [if_pos rfl]
      simp [List.takeWhile_cons]
    · rw [if_neg hc]
      cases hsp : pySplitOnDot cs with
      | nil => exact absurd hsp (pySplitOnDot_ne_nil cs)
      | cons r rs =>
        rw [hsp] at ih
        simp only [List.headD_cons] at ih
        simp [List.takeWhile_cons, hc, ih]

/-- Spec-side base name: the uploaded file name with its extension removed,
where the extension starts at the last dot (identity when the name has no
dot). -/
def lastDotBase (name : String) : String :=
  if name.data.contains '.' then
    String.mk (((name.data.reverse.dropWhile (fun c => c != '.')).drop 1).reverse)
  else name

/-- C4 counterexample: for the two-dot upload name `"a.b.mp3"` the code
derives the transcript artifact name from the part before the first dot
(`"a"`), not from the name minus its extension (`"a.b"`) as the claim
requires. -/
theorem derived_file_name_first_dot_counterexample :
    transcript_file_name "a.b.mp3" = "a_transcript.txt" ∧
      lastDotBase "a.b.mp3" = "a.b" ∧
      transcript_file_name "a.b.mp3" ≠ lastDotBase "a.b.mp3" ++ "_transcript.txt" := by
  refine ⟨rfl, rfl, ?_⟩
  decide

/-- C4 (amended): the base used in all four derived artifact file names
equals everything before the first dot of the uploaded file name (which
coincides with the name minus its extension only when the name contains at
most one dot). -/
theorem derived_file_names_use_first_dot_base (name : String) :
    transcript_file_name name =
        String.mk (name.data.takeWhile (fun c => c != '.')) ++ "_transcript.txt" ∧
      srt_file_name name = String.mk (name.data.takeWhile (fun c => c != '.')) ++ ".srt" ∧
      subtitles_file_name name =
        String.mk (name.data.takeWhile (fun c => c != '.')) ++ "_subtitles.txt" ∧
      full_json_file_name name =
        String.mk (name.data.takeWhile (fun c => c != '.')) ++ "_full_transcript.json" := by
  have hbase : base_name name = String.mk (name.data.takeWhile (fun c => c != '.')) := by
    unfold base_name
    rw [pySplitOnDot_head]
  exact ⟨by unfold transcript_file_name; rw [hbase],
    by unfold srt_file_name; rw [hbase],
    by unfold subtitles_file_name; rw [hbase],
    by unfold full_json_file_name; rw [hbase]⟩

/-! ## Claims about the full-JSON download gating -/

/-- Spec-side gate of claim C5: word-level timing present in at least the
first retained (validated) segment, independent of the configuration. -/
def specFullJsonGate (r : TranscriptionResult) : Bool :=
  match r.segments with
  | none => false
  | some segs =>
    match segs.filter hasRequiredFields with
    | [] => false
    | s0 :: _ => s0.words.isSome

/-- C5 counterexample: a result whose single (valid, retained) segment
carries a `words` key satisfies the claim's gate, yet with
`word_timestamps_requested = false` the code does not offer the full-JSON
download — the gating is not independent of the configuration toggle. -/
theorem full_json_gate_counterexample :
    specFullJsonGate ⟨"t", "en", some [⟨some 0, some 1, some "x", some []⟩]⟩ = true ∧
      full_json_offered false ⟨"t", "en", some [⟨some 0, some 1, some "x", some []⟩]⟩ =
        false :=
  ⟨rfl, rfl⟩

/-- C5 (amended): the full-JSON export is offered iff word timestamps were
requested in the configuration AND the result has a present, non-empty
segments list whose first segment (of the raw list, not the validated one)
is a non-empty dict carrying a `words` key. -/
theorem full_json_offered_iff (req : Bool) (r : TranscriptionResult) :
    full_json_offered req r = true ↔
      req = true ∧ ∃ s0 rest, r.segments = some (s0 :: rest) ∧
        s0.isTruthy = true ∧ s0.words.isSome = true := by
  obtain ⟨t, l, osegs⟩ := r
  cases osegs with
  | none => simp [full_json_offered]
  | some segs =>
    cases segs with
    | nil => simp [full_json_offered]
    | cons s0 rest =>
      constructor
      · intro h
        rw [show full_json_offered req ⟨t, l, some (s0 :: rest)⟩ =
            (req && (s0.isTruthy && s0.words.isSome)) from rfl,
          Bool.and_eq_true, Bool.and_eq_true] at h
        exact ⟨h.1, s0, rest, rfl, h.2.1, h.2.2⟩
      · rintro ⟨hreq, s1, rest1, heq, htr, hw⟩
        simp only [Option.some.injEq, List.cons.injEq] at heq
        obtain ⟨h1, h2⟩ := heq
        subst h1
        rw [show full_json_offered req ⟨t, l, some (s0 :: rest)⟩ =
            (req && (s0.isTruthy && s0.words.isSome)) from rfl,
          Bool.and_eq_true, Bool.and_eq_true]
        exact ⟨hreq, htr, hw⟩

/-! ## Response contract (backend) -/

/-- A raw engine result at the response boundary: any of the declared
fields may be missing. -/
structure RawResponse where
  text : Option String
  language : Option String
  segments : Option (List Segment)

/-- Embedding of the validation induced by the `TranscriptionResponse`
pydantic model declared in `backend/models.py` (`text: str`, `language:
str`, `segments: Optional[List[...]] = None`) as applied by FastAPI to the
value returned from `/transcribe/`: a missing required field fails
validation with a field-naming message, and present fields pass through
unchanged (`segments` may be absent, defaulting to `None`). -/
def validate_response (raw : RawResponse) : Except String TranscriptionResult :=
  match raw.text with
  | none => .error "field required: text"
  | some t =>
    match raw.language with
    | none => .error "field required: language"
    | some l => .ok ⟨t, l, raw.segments⟩

/-- C9: an engine result missing the required `text` or `language` field is
surfaced as a processing fault with a descriptive (non-empty) message and
is never turned into a well-formed response; when both fields are present
they pass through without being defaulted. -/
theorem missing_required_field_is_fault :
    (∀ raw : RawResponse, raw.text = none ∨ raw.language = none →
      (∃ msg, validate_response raw = Except.error msg ∧ msg ≠ "") ∧
        ∀ resp, validate_response raw ≠ Except.ok resp) ∧
      ∀ t l segs, validate_response ⟨some t, some l, segs⟩ =
        Except.ok ⟨t, l, segs⟩ := by
  constructor
  · rintro ⟨otext, olang, osegs⟩ h
    cases otext with
    | none =>
      exact ⟨⟨"field required: text", rfl, by decide⟩,
        fun resp hcontra => Except.noConfusion hcontra⟩
    | some t =>
      cases olang with
      | none =>
        exact ⟨⟨"field required: language", rfl, by decide⟩,
          fun resp hcontra => Except.noConfusion hcontra⟩
      | some l =>
        rcases h with h | h <;> exact Option.noConfusion h
  · intro t l segs
    rfl

/-- Witness for `missing_required_field_is_fault` at a result missing
`text`. -/
theorem missing_required_field_is_fault_witness :
    ((⟨none, some "en", none⟩ : RawResponse).text = none ∨
        (⟨none, some "en", none⟩ : RawResponse).language = none) ∧
      ((∃ msg, validate_response ⟨none, some "en", none⟩ = Except.error msg ∧ msg ≠ "") ∧
        ∀ resp, validate_response ⟨none, some "en", none⟩ ≠ Except.ok resp) :=
  ⟨Or.inl rfl, missing_required_field_is_fault.1 _ (Or.inl rfl)⟩

/-! ## Export Assembler: full-JSON round-trip

`get_subtitle_download_buttons` serialises the whole result dict with
`json.dumps(result, indent=2)` and the artifact is later decoded with a
standard JSON parser. `Json` models the JSON value carried by that text
(rendering a JSON value to text and re-parsing it is the identity on the
value, supplied by the `json` library); the encoder mirrors the dict
layout of a result, emitting a key exactly when the corresponding dict key
is present, and the decoder looks keys up by name, insensitive to their
position in the object. -/

/-- A JSON value as produced by serialising a result dict. -/
inductive Json where
  | str : String → Json
  | num : ℚ → Json
  | arr : List Json → Json
  | obj : List (String × Json) → Json

/-- First-match key lookup in a JSON object, insensitive to key order. -/
def jLookup (k : String) : List (String × Json) → Option Json
  | [] => none
  | (k2, v) :: rest => if k == k2 then some v else jLookup k rest

/-- The JSON value of a word record. -/
def Word.toJson (w : Word) : Json :=
  .obj [("word", .str w.word), ("start", .num w.start), ("end", .num w.«end»)]

/-- The JSON value of a segment dict: a key appears exactly when the field
is present. -/
def Segment.toJson (s : Segment) : Json :=
  .obj ((s.start.map (fun v => ("start", Json.num v))).toList ++
    (s.«end».map (fun v => ("end", Json.num v))).toList ++
    (s.text.map (fun v => ("text", Json.str v))).toList ++
    (s.words.map (fun ws => ("words", Json.arr (ws.map Word.toJson)))).toList)

/-- The JSON value of a whole transcription result. -/
def TranscriptionResult.toJson (r : TranscriptionResult) : Json :=
  .obj ([("text", Json.str r.text), ("language", Json.str r.language)] ++
    (r.segments.map (fun segs => ("segments", Json.arr (segs.map Segment.toJson)))).toList)

def Json.asStr : Json → Option String
  | .str s => some s
  | _ => none

def Json.asNum : Json → Option ℚ
  | .num q => some q
  | _ => none

/-- Decode a word record from its JSON value. -/
def Word.ofJson (j : Json) : Option Word :=
  match j with
  | .obj fields =>
    (jLookup "word" fields).bind fun jw =>
    jw.asStr.bind fun w =>
    (jLookup "start" fields).bind fun js =>
    js.asNum.bind fun st =>
    (jLookup "end" fields).bind fun je =>
    je.asNum.map fun en => ⟨w, st, en⟩
  | _ => none

/-- Decode a JSON array element-wise, in order, failing when any element
fails. -/
def decodeList (f : Json → Option α) : List Json → Option (List α)
  | [] => some []
  | j :: js => (f j).bind fun a => (decodeList f js).map fun as => a :: as

def Json.asWordList (j : Json) : Option (List Word) :=
  match j with
  | .arr js => decodeList Word.ofJson js
  | _ => none

/-- Decode an optional dict key: an absent key is a present `none` field,
a present key must decode. -/
def decodeOptField (f : Json → Option α) : Option Json → Option (Option α)
  | none => some none
  | some v => (f v).map some

/-- Decode a segment dict from its JSON value. -/
def Segment.ofJson (j : Json) : Option Segment :=
  match j with
  | .obj fields =>
    (decodeOptField Json.asNum (jLookup "start" fields)).bind fun ost =>
    (decodeOptField Json.asNum (jLookup "end" fields)).bind fun oen =>
    (decodeOptField Json.asStr (jLookup "text" fields)).bind fun otx =>
    (decodeOptField Json.asWordList (jLookup "words" fields)).map fun ows =>
      ⟨ost, oen, otx, ows⟩
  | _ => none

def Json.asSegmentList (j : Json) : Option (List Segment) :=
  match j with
  | .arr js => decodeList Segment.ofJson js
  | _ => none

/-- Decode a whole transcription result from its JSON value. -/
def TranscriptionResult.ofJson (j : Json) : Option TranscriptionResult :=
  match j with
  | .obj fields =>
    (jLookup "text" fields).bind fun jt =>
    jt.asStr.bind fun t =>
    (jLookup "language" fields).bind fun jl =>
    jl.asStr.bind fun l =>
    (decodeOptField Json.asSegmentList (jLookup "segments" fields)).map fun osegs =>
      ⟨t, l, osegs⟩
  | _ => none

theorem word_roundtrip (w : Word) : Word.ofJson (Word.toJson w) = some w := rfl

theorem decodeList_word_roundtrip (ws : List Word) :
    decodeList Word.ofJson (ws.map Word.toJson) = some ws := by
  induction ws with
  | nil => rfl
  | cons w rest ih =>
    rw [List.map_cons, decodeList, word_roundtrip, ih]
    rfl

theorem segment_roundtrip (s : Segment) : Segment.ofJson (Segment.toJson s) = some s := by
  rcases s with ⟨ost, oen, otx, ows⟩
  cases ost <;> cases oen <;> cases otx <;> cases ows <;>
    simp [Segment.toJson, Segment.ofJson, jLookup, decodeOptField, Json.asWordList,
      Json.asNum, Json.asStr, decodeList_word_roundtrip]

theorem decodeList_segment_roundtrip (segs : List Segment) :
    decodeList Segment.ofJson (segs.map Segment.toJson) = some segs := by
  induction segs with
  | nil => rfl
  | cons s rest ih =>
    rw [List.map_cons, decodeList, segment_roundtrip, ih]
    rfl

/-- C6: decoding the Export Assembler's JSON artifact yields the original
transcription result field-for-field: the decoder reads object keys by
name (insensitive to key order) and arrays element-wise in order, and
decode after encode is the identity on every representable result. -/
theorem json_export_roundtrip (r : TranscriptionResult) :
    TranscriptionResult.ofJson (TranscriptionResult.toJson r) = some r := by
  rcases r with ⟨t, l, osegs⟩
  cases osegs with
  | none => rfl
  | some segs =>
    simp [TranscriptionResult.toJson, TranscriptionResult.ofJson, jLookup, decodeOptField,
      Json.asSegmentList, Json.asStr, decodeList_segment_roundtrip]

end TranscribeAnything
